import Mathlib

/-!
Shallow embedding of the agent-execution core of the repository
(`langchain/agents/agent.py`, `langchain/agents/tools.py`, and
`libs/langchain/langchain/agents/output_parsers/openai_functions.py`),
together with theorems settling the specification claims about it.

Python `str` becomes `String`, Python dicts whose construction order the
code relies on become association lists, `Optional[...]` becomes `Option`,
and the two potentially non-terminating loops (`Agent.plan`'s fix-text
loop and `AgentExecutor._call`'s agent loop) become fuel-indexed
recursions returning `Option`, where `none` means the loop did not
produce a result within the given fuel (so a result of `none` for every
fuel is non-termination).
-/

/-- Embedding of `langchain.schema.AgentAction` as constructed in
`agent.py` (`AgentAction(tool, tool_input, full_output)`): the tool
name, the tool input and the raw log text. -/
structure AgentAction where
  tool : String
  tool_input : String
  log : String
deriving Repr, DecidableEq

/-- Embedding of `langchain.schema.AgentFinish` as constructed in
`agent.py` (`AgentFinish(tool, tool_input, full_output, {"output": tool_input})`):
tool name, tool input, log text, and the mapping of return values. -/
structure AgentFinish where
  tool : String
  tool_input : String
  log : String
  return_values : List (String × String)
deriving Repr, DecidableEq

/-- Embedding of the `Tool` dataclass of `langchain/agents/tools.py`:
a name, an invocation function `str -> str`, an optional description and
the `return_direct` flag (defaulting to `False`). -/
structure Tool where
  name : String
  func : String → String
  description : Option String := none
  return_direct : Bool := false

/-- Embedding of the `Agent` class of `langchain/agents/agent.py`.
The abstract methods `_extract_tool_and_input` and `_fix_text` (supplied
by concrete agent subclasses) and the collaborator call
`self.llm_chain.predict(**full_inputs)` (the language-model caller; its
implementation lives outside the agent core) become function-valued
fields.  `predict` receives the caller kwargs, the stop sequences and
the agent scratchpad — exactly the key/value content of `full_inputs`
in `Agent.plan` — and returns the raw model text. -/
structure Agent where
  predict : List (String × String) → List String → String → String
  extract_tool_and_input : String → Option (String × String)
  fix_text : String → String
  observation_prefix : String
  llm_prefix : String
  return_values : List String := ["output"]

/-- Embedding of the `finish_tool_name` property: the property on `Agent` returning the
constant `"Final Answer"` (agent.py lines 83-86). -/
def Agent.finish_tool_name : String := "Final Answer"

/-- Embedding of `Agent._stop`: the stop-sequence list `[f"\n{self.observation_prefix}"]`. -/
def Agent.stop (a : Agent) : List String := ["\n" ++ a.observation_prefix]

/-- The scratchpad construction inlined at the top of `Agent.plan`
(agent.py lines 60-63): starting from the empty string, append for each
recorded (action, observation) pair the action's log followed by
`f"\n{self.observation_prefix}{observation}\n{self.llm_prefix}"`. -/
def Agent.construct_scratchpad (a : Agent)
    (intermediate_steps : List (AgentAction × String)) : String :=
  intermediate_steps.foldl
    (fun thoughts step =>
      thoughts ++ step.1.log ++ "\n" ++ a.observation_prefix ++ step.2
        ++ "\n" ++ a.llm_prefix)
    ""

/-- Embedding of `Agent.return_stopped_response` (agent.py lines 148-150): a mapping
sending every declared return key to the canned stop message. -/
def Agent.return_stopped_response (a : Agent) : List (String × String) :=
  a.return_values.map (fun k => (k, "Agent stopped due to max iterations."))

/-- The `while parsed_output is None` repair loop of `Agent.plan`
(agent.py lines 68-73), as a fuel-indexed recursion.  State:
the current `agent_scratchpad` value inside `full_inputs`, the current
`full_output`, and the number of `predict` calls made so far.  On
success it returns the extracted `(tool, tool_input)` pair, the final
`full_output` and the call count; `none` means the loop was still
running when the fuel ran out — the source loop has no cap, so a
`none` answer at every fuel is the source loop running forever. -/
def Agent.fixLoop (a : Agent) (kwargs : List (String × String)) :
    Nat → String → String → Nat → Option (String × String × String × Nat)
  | fuel, scratchpad, full_output, calls =>
    match a.extract_tool_and_input full_output, fuel with
    | some (tool, tool_input), _ => some (tool, tool_input, full_output, calls)
    | none, 0 => none
    | none, fuel + 1 =>
      let fixed := a.fix_text full_output
      let scratchpad := scratchpad ++ fixed
      let output := a.predict kwargs a.stop scratchpad
      a.fixLoop kwargs fuel scratchpad (fixed ++ output) (calls + 1)

/-- The result of `Agent.plan`: either an `AgentAction` or (despite the
declared Python return type) an `AgentFinish`. -/
inductive PlanOutput where
  | action (a : AgentAction)
  | finish (f : AgentFinish)
deriving Repr, DecidableEq

/-- Embedding of `Agent.plan` (agent.py lines 47-77): build the
scratchpad, call the model once, run the fix-text repair loop until the
output parses, then return an `AgentFinish` when the extracted tool is
the finish tool name and an `AgentAction` otherwise.  The second
component of the result counts the `predict` calls made. -/
def Agent.plan (a : Agent) (fuel : Nat)
    (intermediate_steps : List (AgentAction × String))
    (kwargs : List (String × String)) : Option (PlanOutput × Nat) :=
  let thoughts := a.construct_scratchpad intermediate_steps
  let full_output := a.predict kwargs a.stop thoughts
  match a.fixLoop kwargs fuel thoughts full_output 1 with
  | none => none
  | some (tool, tool_input, log, calls) =>
    if tool = Agent.finish_tool_name then
      some (.finish ⟨tool, tool_input, log, [("output", tool_input)]⟩, calls)
    else
      some (.action ⟨tool, tool_input, log⟩, calls)

/-- Embedding of the `AgentExecutor` configuration
(agent.py lines 153-159): the agent, the tool list, the
`return_intermediate_steps` flag and the optional iteration bound. -/
structure AgentExecutor where
  agent : Agent
  tools : List Tool
  return_intermediate_steps : Bool := false
  max_iterations : Option Nat := none

/-- Embedding of `AgentExecutor._should_continue` (agent.py lines 193-197): continue
forever when `max_iterations` is unset, otherwise continue exactly while
`iterations < max_iterations`. -/
def AgentExecutor.should_continue (e : AgentExecutor) (iterations : Nat) : Bool :=
  match e.max_iterations with
  | none => true
  | some m => decide (iterations < m)

/-- The lookup in `name_to_tool_map = {tool.name: tool.func for tool in self.tools}`
(agent.py line 204).  A Python dict comprehension lets a later tool with
the same name overwrite an earlier one, so the lookup finds the last
tool carrying the name.  Note that only `tool.func` is stored: the
`return_direct` flag of the descriptor is dropped here and never
consulted by `_call`. -/
def name_to_tool_map (tools : List Tool) (name : String) : Option (String → String) :=
  (tools.reverse.find? (fun t => t.name = name)).map Tool.func

/-- The observation synthesized by `_call` when the requested tool is
absent from the registry (agent.py line 243):
`f"{output.tool} is not a valid tool, try another one."`. -/
def invalid_tool_observation (tool : String) : String :=
  tool ++ " is not a valid tool, try another one."

/-- The two ways `AgentExecutor._call` returns: through the
`AgentFinish` branch (line 217) carrying `output.return_values`, or
through the post-loop stopped branch (line 254) carrying
`return_stopped_response()`.  Both record the intermediate steps
accumulated so far. -/
inductive AgentLoopResult where
  | finishedResult (return_values : List (String × String))
      (intermediate_steps : List (AgentAction × String))
  | stoppedResult (return_values : List (String × String))
      (intermediate_steps : List (AgentAction × String))
deriving Repr, DecidableEq

/-- The `while self._should_continue(iterations)` loop of
`AgentExecutor._call` (agent.py lines 213-253) as a fuel-indexed
recursion.  Besides the loop state of the source (`intermediate_steps`,
`iterations`), the embedding threads two observation counters that the
claims are stated over: the total number of `predict` calls made and
the list of `(name, input)` pairs of tools actually invoked (a lookup
miss invokes no tool).  `none` means the fuel ran out with the loop
still running. -/
def AgentExecutor.callLoop (e : AgentExecutor) (inputs : List (String × String))
    (planFuel : Nat) :
    Nat → List (AgentAction × String) → Nat → Nat → List (String × String) →
      Option (AgentLoopResult × Nat × List (String × String))
  | fuel, intermediate_steps, iterations, model_calls, tool_invocations =>
    match e.should_continue iterations, fuel with
    | false, _ =>
      some (.stoppedResult ( Agent.return_stopped_response e.agent) intermediate_steps,
        model_calls, tool_invocations)
    | true, 0 => none
    | true, fuel + 1 =>
      match e.agent.plan planFuel intermediate_steps inputs with
      | none => none
      | some (.finish f, calls) =>
        some (.finishedResult f.return_values intermediate_steps,
          model_calls + calls, tool_invocations)
      | some (.action act, calls) =>
        match name_to_tool_map e.tools act.tool with
        | some func =>
          let observation := func act.tool_input
          e.callLoop inputs planFuel fuel (intermediate_steps ++ [(act, observation)])
            (iterations + 1) (model_calls + calls)
            (tool_invocations ++ [(act.tool, act.tool_input)])
        | none =>
          let observation := invalid_tool_observation act.tool
          e.callLoop inputs planFuel fuel (intermediate_steps ++ [(act, observation)])
            (iterations + 1) (model_calls + calls) tool_invocations

/-- Embedding of `AgentExecutor._call` (agent.py lines 199-257): start
the loop with an empty trace and iteration count zero. -/
def AgentExecutor.call (e : AgentExecutor) (inputs : List (String × String))
    (planFuel fuel : Nat) :
    Option (AgentLoopResult × Nat × List (String × String)) :=
  e.callLoop inputs planFuel fuel [] 0 0 []

/-- The final dictionary assembly shared by both return sites of
`_call`: the return values, and the intermediate steps attached under
the extra key exactly when `return_intermediate_steps` is set. -/
def AgentExecutor.finalOutput (e : AgentExecutor) (r : AgentLoopResult) :
    List (String × String) × Option (List (AgentAction × String)) :=
  match r with
  | .finishedResult rv steps =>
    (rv, if e.return_intermediate_steps then some steps else none)
  | .stoppedResult rv steps =>
    (rv, if e.return_intermediate_steps then some steps else none)

/-- The prompt objects `Agent.validate_prompt` distinguishes with
`isinstance`: a `PromptTemplate` (with a `template` string), a
`FewShotPromptTemplate` (with a `suffix` string), or any other
`BasePromptTemplate` subclass.  Each carries its `input_variables`. -/
inductive BasePromptTemplate where
  | promptTemplate (input_variables : List String) (template : String)
  | fewShotPromptTemplate (input_variables : List String) (suffix : String)
  | otherPromptTemplate (input_variables : List String)
deriving Repr, DecidableEq

/-- The `input_variables` attribute shared by all prompt variants. -/
def BasePromptTemplate.input_variables : BasePromptTemplate → List String
  | .promptTemplate iv _ => iv
  | .fewShotPromptTemplate iv _ => iv
  | .otherPromptTemplate iv => iv

/-- Embedding of the `validate_prompt` root validator
(agent.py lines 96-112).  When `"agent_scratchpad"` is among the
prompt's input variables the prompt is accepted unchanged.  Otherwise
the source logs a warning and repairs the prompt in place: it appends
`"agent_scratchpad"` to `input_variables` and appends
`"\n{agent_scratchpad}"` to the template (for `PromptTemplate`) or to
the suffix (for `FewShotPromptTemplate`); only for any other prompt
type does it raise `ValueError` (the source message interpolates the
Python type of the prompt). -/
def validate_prompt (prompt : BasePromptTemplate) : Except String BasePromptTemplate :=
  if "agent_scratchpad" ∈ prompt.input_variables then
    .ok prompt
  else
    match prompt with
    | .promptTemplate iv t =>
      .ok (.promptTemplate (iv ++ ["agent_scratchpad"]) (t ++ "\n{agent_scratchpad}"))
    | .fewShotPromptTemplate iv s =>
      .ok (.fewShotPromptTemplate (iv ++ ["agent_scratchpad"]) (s ++ "\n{agent_scratchpad}"))
    | .otherPromptTemplate _ =>
      .error "Got unexpected prompt type"

/-!
Embedding of `OpenAIFunctionsAgentOutputParser._parse_ai_message`
(`libs/langchain/langchain/agents/output_parsers/openai_functions.py`,
lines 40-80).  The value returned by `json.loads` is modelled by the
`JsonValue` inductive; `json.loads` itself is Python's standard-library
JSON decoder (an external collaborator), so the embedding takes the
decoding function as a parameter, with `none` standing for a
`JSONDecodeError`.
-/

/-- A decoded JSON value as produced by `json.loads`: Python `str`,
`int` (floats are out of scope for the claims), `bool`, `None`, `list`
or `dict`. -/
inductive JsonValue where
  | str (s : String)
  | num (n : Int)
  | bool (b : Bool)
  | null
  | arr (xs : List JsonValue)
  | obj (fields : List (String × JsonValue))
deriving Repr

/-- The `function_call` entry of an AI message's `additional_kwargs`:
a dict with a `name` and an (undecoded) `arguments` string. -/
structure FunctionCall where
  name : String
  arguments : String
deriving Repr, DecidableEq

/-- Embedding of an `AIMessage`: its text content and the optional
`function_call` of `additional_kwargs`.  `none` covers both an absent
key and an empty dict, the two falsy cases of
`message.additional_kwargs.get("function_call", {})`. -/
structure AIMessage where
  content : String
  function_call : Option FunctionCall
deriving Repr, DecidableEq

/-- The exceptions `_parse_ai_message` can raise on the function-call
path: `OutputParserException` (the parse error for invalid JSON
arguments) and Python's built-in `TypeError` (raised by `in` or by
indexing on an unsuitable `_tool_input`). -/
inductive PyError where
  | outputParserException (msg : String)
  | typeError (msg : String)
deriving Repr, DecidableEq

/-- Embedding of `_FunctionsAgentAction`: an agent action whose
`tool_input` is an arbitrary decoded JSON value, plus the message log. -/
structure FunctionsAgentAction where
  tool : String
  tool_input : JsonValue
  log : String
  message_log : List AIMessage
deriving Repr

/-- The result of `_parse_ai_message`: an action, or an `AgentFinish`
with `return_values = {"output": message.content}` and the content as
log. -/
inductive ParsedAIMessage where
  | action (act : FunctionsAgentAction)
  | finish (return_values : List (String × String)) (log : String)
deriving Repr

/-- A one-character string holding the ASCII apostrophe, used to render
Python `repr` output. -/
def pySquote : String := String.singleton (Char.ofNat 39)

mutual
/-- Python `repr` of a decoded JSON value (string-escaping inside
`str` values is not modelled; no claim depends on it). -/
def pyRepr : JsonValue → String
  | .str s => pySquote ++ s ++ pySquote
  | .num n => toString n
  | .bool true => "True"
  | .bool false => "False"
  | .null => "None"
  | .arr xs => "[" ++ String.intercalate ", " (pyReprList xs) ++ "]"
  | .obj fields => "\x7b" ++ String.intercalate ", " (pyReprFields fields) ++ "\x7d"

/-- Python `repr` of each element of a Python list. -/
def pyReprList : List JsonValue → List String
  | [] => []
  | x :: xs => pyRepr x :: pyReprList xs

/-- Python `repr` of each `key: value` entry of a Python dict. -/
def pyReprFields : List (String × JsonValue) → List String
  | [] => []
  | (k, v) :: fs => (pySquote ++ k ++ pySquote ++ ": " ++ pyRepr v) :: pyReprFields fs
end

/-- Python `str` of a decoded JSON value (as interpolated by an
f-string): a `str` renders as itself, everything else as its `repr`. -/
def pyStr : JsonValue → String
  | .str s => s
  | v => pyRepr v

/-- Python `str` of the `function_call` dict, as interpolated into the
`OutputParserException` message. -/
def pyReprFunctionCall (fc : FunctionCall) : String :=
  "\x7b" ++ pySquote ++ "name" ++ pySquote ++ ": " ++ pySquote ++ fc.name ++ pySquote ++ ", "
    ++ pySquote ++ "arguments" ++ pySquote ++ ": " ++ pySquote ++ fc.arguments ++ pySquote ++ "\x7d"

/-- The `__arg1` unpacking step of `_parse_ai_message`
(openai_functions.py lines 64-67), with Python's semantics of
`"__arg1" in _tool_input` followed by `_tool_input["__arg1"]`:
on a dict, key membership then key lookup (`json.loads` keeps the last
of duplicate keys); on a string, substring test then a `TypeError` from
string indexing; on a list, element-equality membership then a
`TypeError` from list indexing; `in` on a number, boolean or `None`
raises `TypeError` because the value is not iterable. -/
def unpack_arg1 : JsonValue → Except PyError JsonValue
  | .obj fields =>
    match fields.reverse.find? (fun p => p.1 = "__arg1") with
    | some p => .ok p.2
    | none => .ok (.obj fields)
  | .str s =>
    if (s.splitOn "__arg1").length > 1 then
      .error (.typeError "string indices must be integers")
    else
      .ok (.str s)
  | .arr xs =>
    if xs.any (fun v => match v with | .str s => s = "__arg1" | _ => false) then
      .error (.typeError "list indices must be integers or slices, not str")
    else
      .ok (.arr xs)
  | .num _ => .error (.typeError "argument of type Int is not iterable")
  | .bool _ => .error (.typeError "argument of type Bool is not iterable")
  | .null => .error (.typeError "argument of type NoneType is not iterable")

/-- Embedding of `OpenAIFunctionsAgentOutputParser._parse_ai_message`
(openai_functions.py lines 40-80), parameterized by the JSON decoder.
With a truthy `function_call`: decode the arguments (a decode failure
is an `OutputParserException`), unpack `__arg1` when present, and build
a `_FunctionsAgentAction` whose log interpolates the function name and
the tool input.  Without one: the message content is the final
output. -/
def parse_ai_message (json_loads : String → Option JsonValue)
    (message : AIMessage) : Except PyError ParsedAIMessage :=
  match message.function_call with
  | some fc =>
    match json_loads fc.arguments with
    | none =>
      .error (.outputParserException
        ("Could not parse tool input: " ++ pyReprFunctionCall fc
          ++ " because the `arguments` is not valid JSON."))
    | some decoded =>
      match unpack_arg1 decoded with
      | .error e => .error e
      | .ok tool_input =>
        let content_msg :=
          if message.content ≠ "" then "responded: " ++ message.content ++ "\n"
          else "\n"
        let log := "\nInvoking: `" ++ fc.name ++ "` with `" ++ pyStr tool_input
          ++ "`\n" ++ content_msg ++ "\n"
        .ok (.action ⟨fc.name, tool_input, log, [message]⟩)
  | none => .ok (.finish [("output", message.content)] message.content)

/-- Modelled from the spec: the stopping-policy evaluator of §4.4,
`shouldContinue(iterations, elapsedTime)`, a pure function of the two
counters plus two configured optional bounds (max iterations, max
wall-clock seconds; an unset bound means unbounded on that axis),
returning false as soon as either configured bound is exceeded or
equal.  This is the claim-side definition, to be compared with the
source's `AgentExecutor.should_continue`, which has no wall-clock
axis. -/
def shouldContinueSpec (max_iterations max_execution_time : Option Nat)
    (iterations elapsed_time : Nat) : Bool :=
  (match max_iterations with
   | none => true
   | some m => decide (iterations < m))
  &&
  (match max_execution_time with
   | none => true
   | some t => decide (elapsed_time < t))

/-!
Concrete fixtures: scripted agents, tools and executors used to
instantiate the claims on explicit inputs.
-/

/-- A concrete tool whose descriptor carries `return_direct = True`. -/
def echoTool : Tool :=
  { name := "echo", func := fun s => "obs:" ++ s, return_direct := true }

/-- A scripted agent: the first model call (empty scratchpad) chooses
the `echo` tool, any later model call produces a final answer. -/
def scriptedAgent : Agent :=
  { predict := fun _ _ scratchpad => if scratchpad = "" then "use echo" else "finish now"
    extract_tool_and_input := fun text =>
      if text = "use echo" then some ("echo", "hi") else some ("Final Answer", "done")
    fix_text := fun text => text
    observation_prefix := "Observation: "
    llm_prefix := "Thought: " }

/-- An executor whose registry holds the `return_direct` tool. -/
def returnDirectExec : AgentExecutor :=
  { agent := scriptedAgent, tools := [echoTool] }

/-- An agent whose very first model output already parses as a final
answer. -/
def finishAgent : Agent :=
  { predict := fun _ _ _ => "final"
    extract_tool_and_input := fun _ => some ("Final Answer", "42")
    fix_text := fun text => text
    observation_prefix := "Observation: "
    llm_prefix := "Thought: " }

/-- An executor configured with `max_iterations = 0`. -/
def zeroIterExec : AgentExecutor :=
  { agent := finishAgent, tools := [], max_iterations := some 0 }

/-- An executor configured with `max_iterations = 2`. -/
def boundedExec : AgentExecutor :=
  { agent := finishAgent, tools := [], max_iterations := some 2 }

/-- An agent that always requests the unregistered tool name `ghost`. -/
def ghostAgent : Agent :=
  { predict := fun _ _ _ => "u"
    extract_tool_and_input := fun _ => some ("ghost", "x")
    fix_text := fun text => text
    observation_prefix := "Observation: "
    llm_prefix := "Thought: " }

/-- An executor whose agent keeps naming a tool absent from the
registry. -/
def ghostExec : AgentExecutor :=
  { agent := ghostAgent, tools := [echoTool] }

/-- An agent whose extraction never succeeds while its `_fix_text`
always returns. -/
def neverParsesAgent : Agent :=
  { predict := fun _ _ _ => "gibberish"
    extract_tool_and_input := fun _ => none
    fix_text := fun text => text
    observation_prefix := "Observation: "
    llm_prefix := "Thought: " }

/-- A table stand-in for the external `json.loads`, agreeing with the
real decoder on the argument strings appearing in this file. -/
def json_loads_fixture : String → Option JsonValue := fun s =>
  if s = "\x7b\"__arg1\": \"x\", \"other\": 1\x7d" then
    some (.obj [("__arg1", .str "x"), ("other", .num 1)])
  else if s = "\x7b\"__arg1\": \"x\"\x7d" then
    some (.obj [("__arg1", .str "x")])
  else if s = "\x7b\"a\": 1\x7d" then
    some (.obj [("a", .num 1)])
  else none

/-- An AI message whose function-call arguments decode to a dict
holding `__arg1` and a second key. -/
def multiKeyMessage : AIMessage :=
  { content := ""
    function_call := some { name := "t", arguments := "\x7b\"__arg1\": \"x\", \"other\": 1\x7d" } }

/-- An AI message whose function-call arguments decode to a dict
holding only `__arg1`. -/
def soleArgMessage : AIMessage :=
  { content := ""
    function_call := some { name := "t", arguments := "\x7b\"__arg1\": \"x\"\x7d" } }

/-!
Helper lemmas shared by the claim theorems.
-/

/-- Joining a cons is appending the head to the join of the tail. -/
theorem string_join_cons (s : String) (l : List String) :
    String.join (s :: l) = s ++ String.join l := by
  apply String.ext
  simp [String.data_join]

/-- Folding string concatenation from an accumulator equals the
accumulator followed by the join of the per-element strings. -/
theorem string_foldl_join {α : Type} (g : α → String) (l : List α) :
    ∀ acc : String,
      l.foldl (fun th x => th ++ g x) acc = acc ++ String.join (l.map g) := by
  induction l with
  | nil => intro acc; simp [String.join, String.append_empty]
  | cons x l ih =>
    intro acc
    rw [List.foldl_cons, ih, List.map_cons, string_join_cons, ← String.append_assoc]

/-- When extraction never succeeds, the fix-text loop consumes all its
fuel without producing a parse. -/
theorem fixLoop_none_of_extract_none (a : Agent)
    (h : ∀ text, a.extract_tool_and_input text = none)
    (kwargs : List (String × String)) :
    ∀ (fuel : Nat) (scratchpad full_output : String) (calls : Nat),
      a.fixLoop kwargs fuel scratchpad full_output calls = none := by
  intro fuel
  induction fuel with
  | zero => intro scratchpad full_output calls; unfold Agent.fixLoop; rw [h full_output]
  | succ n ih =>
    intro scratchpad full_output calls
    unfold Agent.fixLoop
    rw [h full_output]
    exact ih _ _ _

/-!
Claim theorems.
-/

/-- C1: the claim says a `return_direct = True` tool makes the executor
finish immediately after its single dispatch, returning the tool's raw
observation with zero further model calls.  Evaluating the embedded
`AgentExecutor._call` at the failing input — a registry holding the
`return_direct` tool `echo` and a model that picks `echo` on iteration 1
and a final answer on iteration 2 — shows the code ignores the flag:
after dispatching `echo` (observation `"obs:hi"`) the loop makes a
second model call (2 total) and returns the model's answer `"done"`,
not the raw observation. -/
theorem return_direct_is_ignored_by_executor :
    echoTool.return_direct = true ∧
    returnDirectExec.tools = [echoTool] ∧
    returnDirectExec.call [] 0 3 =
      some (.finishedResult [("output", "done")]
        [(⟨"echo", "hi", "use echo"⟩, "obs:hi")], 2, [("echo", "hi")]) :=
  ⟨rfl, rfl, rfl⟩

/-- C2 counterexample: with `max_iterations = 0` and an agent whose very
first model call would already produce a Finish (first conjunct), the
executor performs zero iterations and zero model calls and returns the
stopped response — refuting the claim that exactly one iteration (one
model call) is still attempted. -/
theorem max_iterations_zero_skips_model_call :
    finishAgent.plan 5 [] [] =
      some (.finish ⟨"Final Answer", "42", "final", [("output", "42")]⟩, 1) ∧
    zeroIterExec.call [] 5 5 =
      some (.stoppedResult [("output", "Agent stopped due to max iterations.")] [], 0, []) :=
  ⟨rfl, rfl⟩

/-- C2 amended: with `max_iterations = 0` the loop body never runs: the
executor returns the stopped response immediately, with zero model
calls, zero tool invocations and an empty trace. -/
theorem max_iterations_zero_returns_stopped_without_model_call
    (e : AgentExecutor) (inputs : List (String × String)) (planFuel fuel : Nat)
    (h : e.max_iterations = some 0) :
    e.call inputs planFuel fuel =
      some (.stoppedResult ( Agent.return_stopped_response e.agent) [], 0, []) := by
  have hc : e.should_continue 0 = false := by
    unfold AgentExecutor.should_continue
    rw [h]
    rfl
  unfold AgentExecutor.call AgentExecutor.callLoop
  rw [hc]

/-- Witness for the amended C2 at the concrete zero-bound executor. -/
theorem max_iterations_zero_returns_stopped_witness :
    zeroIterExec.max_iterations = some 0 ∧
    zeroIterExec.call [] 5 5 =
      some (.stoppedResult ( Agent.return_stopped_response zeroIterExec.agent) [], 0, []) :=
  ⟨rfl, max_iterations_zero_returns_stopped_without_model_call zeroIterExec [] 5 5 rfl⟩

/-- C3 counterexample: no executor configuration realizes the claimed
wall-clock axis.  The spec-side evaluator with no iteration bound and a
5-second time bound cannot be matched by `_should_continue` of any
`AgentExecutor`: the former flips from true to false as elapsed time
passes the bound, while the latter does not depend on elapsed time at
all. -/
theorem no_wall_clock_bound_counterexample :
    ¬ ∃ e : AgentExecutor, ∀ iterations elapsed_time : Nat,
        e.should_continue iterations =
          shouldContinueSpec none (some 5) iterations elapsed_time := by
  rintro ⟨e, h⟩
  have h0 := h 0 0
  have h5 := h 0 5
  have e0 : shouldContinueSpec none (some 5) 0 0 = true := rfl
  have e5 : shouldContinueSpec none (some 5) 0 5 = false := rfl
  rw [e0] at h0
  rw [e5] at h5
  exact absurd (h0.symm.trans h5) (by decide)

/-- C3 amended: the stopping-policy evaluator is a pure function of the
iteration count alone, with one optional bound: it coincides with the
spec-side two-bound evaluator whose wall-clock axis is permanently
unset, and it returns false exactly when a configured `max_iterations`
is met or exceeded by the iteration count. -/
theorem should_continue_iteration_bound_only :
    (∀ (e : AgentExecutor) (iterations elapsed_time : Nat),
        e.should_continue iterations =
          shouldContinueSpec e.max_iterations none iterations elapsed_time) ∧
    (∀ (e : AgentExecutor) (iterations : Nat),
        e.should_continue iterations = false ↔
          ∃ m, e.max_iterations = some m ∧ m ≤ iterations) := by
  constructor
  · intro e i t
    unfold AgentExecutor.should_continue shouldContinueSpec
    cases e.max_iterations <;> simp
  · intro e i
    unfold AgentExecutor.should_continue
    cases hm : e.max_iterations with
    | none => simp
    | some m => simp [Nat.not_lt]

/-- Witness for the amended C3 at the concrete two-iteration bound. -/
theorem should_continue_iteration_bound_only_witness :
    boundedExec.should_continue 3 = false :=
  (should_continue_iteration_bound_only.2 boundedExec 3).mpr ⟨2, rfl, by norm_num⟩

/-- C4: the fix-text sub-protocol has no iteration cap.  For an agent
whose `_fix_text` returns (it is a total function field here) and whose
tool/input extraction yields `None` on every model output, `Agent.plan`
yields no result at any fuel: the `while parsed_output is None` loop
re-invokes the model forever and `plan` never terminates. -/
theorem unparsable_output_loops_forever (a : Agent)
    (h : ∀ text, a.extract_tool_and_input text = none) :
    ∀ (fuel : Nat) (intermediate_steps : List (AgentAction × String))
      (kwargs : List (String × String)),
      a.plan fuel intermediate_steps kwargs = none := by
  intro fuel intermediate_steps kwargs
  unfold Agent.plan
  simp only [fixLoop_none_of_extract_none a h kwargs]

/-- Witness for C4 at a concrete never-parsing agent and fuel 7. -/
theorem unparsable_output_loops_forever_witness :
    (∀ text, neverParsesAgent.extract_tool_and_input text = none) ∧
      neverParsesAgent.plan 7 [] [] = none :=
  ⟨fun _ => rfl, unparsable_output_loops_forever neverParsesAgent (fun _ => rfl) 7 [] []⟩

/-- C6 counterexample: a prompt missing the `agent_scratchpad`
placeholder does not raise — `validate_prompt` repairs it in place,
appending the variable and the placeholder text, and returns the
repaired prompt. -/
theorem missing_scratchpad_repaired_not_raised :
    validate_prompt (.promptTemplate ["input"] "T") =
      .ok (.promptTemplate ["input", "agent_scratchpad"] "T\n{agent_scratchpad}") := rfl

/-- C6 amended: a prompt missing `agent_scratchpad` is repaired (with a
logged warning), for both `PromptTemplate` and `FewShotPromptTemplate`;
an exception escapes only when such a prompt is of any other type. -/
theorem validate_prompt_repairs_known_prompts
    (input_variables : List String) (template fewshot_suffix : String)
    (h : "agent_scratchpad" ∉ input_variables) :
    validate_prompt (.promptTemplate input_variables template) =
        .ok (.promptTemplate (input_variables ++ ["agent_scratchpad"])
          (template ++ "\n{agent_scratchpad}")) ∧
    validate_prompt (.fewShotPromptTemplate input_variables fewshot_suffix) =
        .ok (.fewShotPromptTemplate (input_variables ++ ["agent_scratchpad"])
          (fewshot_suffix ++ "\n{agent_scratchpad}")) ∧
    validate_prompt (.otherPromptTemplate input_variables) =
        .error "Got unexpected prompt type" := by
  refine ⟨?_, ?_, ?_⟩ <;>
    simp [validate_prompt, BasePromptTemplate.input_variables, h]

/-- Witness for the amended C6 at a concrete variable list. -/
theorem validate_prompt_repairs_known_prompts_witness :
    "agent_scratchpad" ∉ ["input"] ∧
    validate_prompt (.fewShotPromptTemplate ["input"] "S") =
      .ok (.fewShotPromptTemplate ["input", "agent_scratchpad"] "S\n{agent_scratchpad}") := by
  have h : "agent_scratchpad" ∉ ["input"] := by decide
  exact ⟨h, (validate_prompt_repairs_known_prompts ["input"] "T" "S" h).2.1⟩

/-- C8: the text-mode scratchpad is the concatenation, in strict step
order, of each step's action log, the observation literal
(newline plus observation prefix), the observation string, and the
thinking literal (newline plus llm prefix); being a `def` of the trace
alone, it is a deterministic pure function of the trace. -/
theorem scratchpad_is_ordered_concatenation (a : Agent)
    (intermediate_steps : List (AgentAction × String)) :
    a.construct_scratchpad intermediate_steps =
      String.join (intermediate_steps.map (fun step =>
        step.1.log ++ ("\n" ++ a.observation_prefix) ++ step.2
          ++ ("\n" ++ a.llm_prefix))) := by
  have hfun : (fun (thoughts : String) (step : AgentAction × String) =>
        thoughts ++ step.1.log ++ "\n" ++ a.observation_prefix ++ step.2
          ++ "\n" ++ a.llm_prefix)
      = fun (thoughts : String) (step : AgentAction × String) =>
        thoughts ++ (step.1.log ++ ("\n" ++ a.observation_prefix) ++ step.2
          ++ ("\n" ++ a.llm_prefix)) := by
    funext thoughts step
    simp [String.append_assoc]
  unfold Agent.construct_scratchpad
  rw [hfun,
    string_foldl_join
      (fun (step : AgentAction × String) =>
        step.1.log ++ ("\n" ++ a.observation_prefix) ++ step.2
          ++ ("\n" ++ a.llm_prefix))
      intermediate_steps "",
    String.empty_append]

/-- C9: the stopping-policy evaluator is monotone in its counter:
once it returns false at some iteration count it returns false at
every larger one, under the same configuration (elapsed time does not
enter the source evaluator at all). -/
theorem should_continue_monotone (e : AgentExecutor) (i j : Nat)
    (h : e.should_continue i = false) (hij : i ≤ j) :
    e.should_continue j = false := by
  unfold AgentExecutor.should_continue at h ⊢
  cases hm : e.max_iterations with
  | none => rw [hm] at h; cases h
  | some m =>
    rw [hm] at h
    simp only [decide_eq_false_iff_not, Nat.not_lt] at h ⊢
    exact le_trans h hij

/-- Witness for C9 at the concrete two-iteration bound. -/
theorem should_continue_monotone_witness :
    boundedExec.should_continue 2 = false ∧ boundedExec.should_continue 5 = false :=
  ⟨rfl, should_continue_monotone boundedExec 2 5 rfl (by norm_num)⟩

/-- C5: when the agent loop is still running and the planner yields an
action whose tool name misses the registry, the executor raises nothing
and invokes no tool: it synthesizes the invalid-tool observation (a
pure function of the tool name, hence the same text on every repeat),
appends the (action, observation) pair to the trace and continues the
loop with the tool-invocation record unchanged. -/
theorem invalid_tool_recoverable_step
    (e : AgentExecutor) (inputs : List (String × String))
    (planFuel fuel iterations model_calls : Nat)
    (intermediate_steps : List (AgentAction × String))
    (tool_invocations : List (String × String))
    (act : AgentAction) (calls : Nat)
    (hcont : e.should_continue iterations = true)
    (hplan : e.agent.plan planFuel intermediate_steps inputs = some (.action act, calls))
    (hmiss : name_to_tool_map e.tools act.tool = none) :
    e.callLoop inputs planFuel (fuel + 1) intermediate_steps iterations
        model_calls tool_invocations =
      e.callLoop inputs planFuel fuel
        (intermediate_steps ++ [(act, act.tool ++ " is not a valid tool, try another one.")])
        (iterations + 1) (model_calls + calls) tool_invocations := by
  conv_lhs => unfold AgentExecutor.callLoop
  rw [hcont, hplan]
  show (match name_to_tool_map e.tools act.tool with
    | some func =>
      e.callLoop inputs planFuel fuel
        (intermediate_steps ++ [(act, func act.tool_input)])
        (iterations + 1) (model_calls + calls)
        (tool_invocations ++ [(act.tool, act.tool_input)])
    | none =>
      e.callLoop inputs planFuel fuel
        (intermediate_steps ++ [(act, invalid_tool_observation act.tool)])
        (iterations + 1) (model_calls + calls) tool_invocations) = _
  rw [hmiss]
  rfl

/-- Witness for C5 at a concrete executor whose agent keeps naming the
unregistered tool `ghost`. -/
theorem invalid_tool_recoverable_step_witness :
    ghostExec.should_continue 0 = true ∧
    ghostExec.agent.plan 0 [] [] = some (.action ⟨"ghost", "x", "u"⟩, 1) ∧
    name_to_tool_map ghostExec.tools "ghost" = none ∧
    ghostExec.callLoop [] 0 4 [] 0 0 [] =
      ghostExec.callLoop [] 0 3
        [(⟨"ghost", "x", "u"⟩, "ghost is not a valid tool, try another one.")] 1 1 [] :=
  ⟨rfl, rfl, rfl,
    invalid_tool_recoverable_step ghostExec [] 0 3 0 0 [] [] ⟨"ghost", "x", "u"⟩ 1 rfl rfl rfl⟩

/-- C7 counterexample: the claim reserves unpacking for arguments
consisting solely of the legacy key `__arg1`, with all other decoded
arguments passed through whole.  But for arguments decoding to the
two-key dict holding `__arg1` and `other`, the parser still unpacks:
the action's `tool_input` is the plain string `"x"`, not the decoded
object the claim prescribes. -/
theorem arg1_unpacked_even_with_other_keys :
    parse_ai_message json_loads_fixture multiKeyMessage =
      .ok (.action ⟨"t", .str "x",
        "\nInvoking: `t` with `x`\n\n\n", [multiKeyMessage]⟩) ∧
    JsonValue.str "x" ≠ JsonValue.obj [("__arg1", .str "x"), ("other", .num 1)] :=
  ⟨rfl, fun h => JsonValue.noConfusion h⟩

/-- C7 amended: with a structured function-call field present, parsing
yields a single action with tool = the function name; arguments whose
decoded dict contains the key `__arg1` (solely or not) are unpacked so
`tool_input` is the value stored at `__arg1`, and a decoded dict
without that key is passed through as `tool_input` whole; arguments
that fail to JSON-decode raise a `ParseError`
(`OutputParserException`), not a silent failure.  Without a
function-call field the message content is the final output. -/
theorem function_call_parse_characterization
    (json_loads : String → Option JsonValue) (message : AIMessage) :
    (message.function_call = none →
      parse_ai_message json_loads message =
        .ok (.finish [("output", message.content)] message.content)) ∧
    (∀ fc, message.function_call = some fc →
      (json_loads fc.arguments = none →
        parse_ai_message json_loads message =
          .error (.outputParserException
            ("Could not parse tool input: " ++ pyReprFunctionCall fc
              ++ " because the `arguments` is not valid JSON."))) ∧
      (∀ fields entry,
        json_loads fc.arguments = some (.obj fields) →
        fields.reverse.find? (fun p => p.1 = "__arg1") = some entry →
        ∃ log, parse_ai_message json_loads message =
          .ok (.action ⟨fc.name, entry.2, log, [message]⟩)) ∧
      (∀ fields,
        json_loads fc.arguments = some (.obj fields) →
        fields.reverse.find? (fun p => p.1 = "__arg1") = none →
        ∃ log, parse_ai_message json_loads message =
          .ok (.action ⟨fc.name, .obj fields, log, [message]⟩))) := by
  refine ⟨?_, ?_⟩
  · intro h
    simp only [parse_ai_message, h]
  · intro fc hfc
    refine ⟨?_, ?_, ?_⟩
    · intro hjson
      simp only [parse_ai_message, hfc, hjson]
    · intro fields entry hjson hfind
      refine ⟨"\nInvoking: `" ++ fc.name ++ "` with `" ++ pyStr entry.2 ++ "`\n"
        ++ (if message.content ≠ "" then "responded: " ++ message.content ++ "\n"
            else "\n") ++ "\n", ?_⟩
      simp only [parse_ai_message, hfc, hjson, unpack_arg1, hfind]
    · intro fields hjson hfind
      refine ⟨"\nInvoking: `" ++ fc.name ++ "` with `" ++ pyStr (.obj fields) ++ "`\n"
        ++ (if message.content ≠ "" then "responded: " ++ message.content ++ "\n"
            else "\n") ++ "\n", ?_⟩
      simp only [parse_ai_message, hfc, hjson, unpack_arg1, hfind]

/-- Witness for the amended C7: the solely-`__arg1` arguments of the
fixture message are unpacked to the plain string value. -/
theorem function_call_parse_characterization_witness :
    ∃ log, parse_ai_message json_loads_fixture soleArgMessage =
      .ok (.action ⟨"t", .str "x", log, [soleArgMessage]⟩) :=
  ((function_call_parse_characterization json_loads_fixture soleArgMessage).2
    ⟨"t", "\x7b\"__arg1\": \"x\"\x7d"⟩ rfl).2.1
    [("__arg1", .str "x")] ("__arg1", .str "x") rfl rfl

/-- A `plan` result that is an action never carries the finish tool
name: the branch on the extracted tool sends that name to the
`AgentFinish` constructor instead. -/
theorem plan_action_tool_ne_finish (a : Agent) (fuel : Nat)
    (intermediate_steps : List (AgentAction × String))
    (kwargs : List (String × String)) (act : AgentAction) (calls : Nat)
    (h : a.plan fuel intermediate_steps kwargs = some (.action act, calls)) :
    act.tool ≠ Agent.finish_tool_name := by
  simp only [Agent.plan] at h
  split at h
  · exact Option.noConfusion h
  · rename_i tool tool_input log calls2
    split at h
    · simp at h
    · rename_i hne
      simp only [Option.some.injEq, Prod.mk.injEq, PlanOutput.action.injEq] at h
      obtain ⟨h1, h2⟩ := h
      subst h1
      exact hne

/-- A `plan` result that is a finish carries the finish tool name and
the singleton `output` mapping holding the extracted tool input. -/
theorem plan_finish_return_values (a : Agent) (fuel : Nat)
    (intermediate_steps : List (AgentAction × String))
    (kwargs : List (String × String)) (f : AgentFinish) (calls : Nat)
    (h : a.plan fuel intermediate_steps kwargs = some (.finish f, calls)) :
    f.tool = Agent.finish_tool_name ∧ f.return_values = [("output", f.tool_input)] := by
  simp only [Agent.plan] at h
  split at h
  · exact Option.noConfusion h
  · rename_i tool tool_input log calls2
    split at h
    · rename_i heq
      simp only [Option.some.injEq, Prod.mk.injEq, PlanOutput.finish.injEq] at h
      obtain ⟨h1, h2⟩ := h
      subst h1
      exact ⟨heq, rfl⟩
    · simp at h

/-- Along the agent loop, every recorded tool invocation carries a
name different from the finish tool name, because each invoked name
comes from an action produced by `plan`. -/
theorem callLoop_invocations_ne_finish (e : AgentExecutor)
    (inputs : List (String × String)) (planFuel : Nat) :
    ∀ (fuel : Nat) (intermediate_steps : List (AgentAction × String))
      (iterations model_calls : Nat) (tc : List (String × String))
      (r : AgentLoopResult) (mc : Nat) (tc2 : List (String × String)),
      e.callLoop inputs planFuel fuel intermediate_steps iterations model_calls tc
        = some (r, mc, tc2) →
      (∀ p ∈ tc, p.1 ≠ Agent.finish_tool_name) →
      ∀ p ∈ tc2, p.1 ≠ Agent.finish_tool_name := by
  intro fuel
  induction fuel with
  | zero =>
    intro steps iters mc0 tc r mc tc2 h hinv
    unfold AgentExecutor.callLoop at h
    split at h
    · simp only [Option.some.injEq, Prod.mk.injEq] at h
      obtain ⟨h1, h2, h3⟩ := h
      subst h3
      exact hinv
    · exact Option.noConfusion h
    · rename_i hf
      exact absurd hf (by omega)
  | succ n ih =>
    intro steps iters mc0 tc r mc tc2 h hinv
    unfold AgentExecutor.callLoop at h
    split at h
    · simp only [Option.some.injEq, Prod.mk.injEq] at h
      obtain ⟨h1, h2, h3⟩ := h
      subst h3
      exact hinv
    · rename_i hf
      exact absurd hf (by omega)
    · rename_i fuelB hc hf
      obtain rfl : fuelB = n := by omega
      split at h
      · exact Option.noConfusion h
      · simp only [Option.some.injEq, Prod.mk.injEq] at h
        obtain ⟨h1, h2, h3⟩ := h
        subst h3
        exact hinv
      · rename_i act calls hplan
        split at h
        · exact ih _ _ _ _ _ _ _ h (by
            intro p hp
            rcases List.mem_append.mp hp with hmem | hmem
            · exact hinv p hmem
            · rcases List.mem_singleton.mp hmem with rfl
              exact plan_action_tool_ne_finish e.agent planFuel steps inputs act calls hplan)
        · exact ih _ _ _ _ _ _ _ h hinv

/-- C10: `Agent.plan` never returns an action whose tool equals the
agent's finish tool name `"Final Answer"` — whenever the extracted tool
name equals it, `plan` returns an `AgentFinish` carrying
`{"output": tool_input}` instead — and consequently no tool invocation
recorded by the executor ever carries that name, so a tool registered
under `"Final Answer"` is never dispatched. -/
theorem finish_tool_name_never_dispatched :
    Agent.finish_tool_name = "Final Answer" ∧
    (∀ (a : Agent) (fuel : Nat) (intermediate_steps : List (AgentAction × String))
        (kwargs : List (String × String)) (act : AgentAction) (calls : Nat),
      a.plan fuel intermediate_steps kwargs = some (.action act, calls) →
      act.tool ≠ Agent.finish_tool_name) ∧
    (∀ (a : Agent) (fuel : Nat) (intermediate_steps : List (AgentAction × String))
        (kwargs : List (String × String)) (f : AgentFinish) (calls : Nat),
      a.plan fuel intermediate_steps kwargs = some (.finish f, calls) →
      f.tool = Agent.finish_tool_name ∧ f.return_values = [("output", f.tool_input)]) ∧
    (∀ (e : AgentExecutor) (inputs : List (String × String)) (planFuel fuel : Nat)
        (r : AgentLoopResult) (model_calls : Nat) (tool_invocations : List (String × String)),
      e.call inputs planFuel fuel = some (r, model_calls, tool_invocations) →
      ∀ p ∈ tool_invocations, p.1 ≠ Agent.finish_tool_name) :=
  ⟨rfl, plan_action_tool_ne_finish, plan_finish_return_values,
    fun e inputs planFuel fuel r model_calls tool_invocations h =>
      callLoop_invocations_ne_finish e inputs planFuel fuel [] 0 0 [] r
        model_calls tool_invocations h (by simp)⟩

/-- Witness for C10: the ghost-naming agent's action does not carry the
finish tool name, and the concrete executor run that invoked `echo`
recorded no invocation of the finish tool name. -/
theorem finish_tool_name_never_dispatched_witness :
    ghostAgent.plan 0 [] [] = some (.action ⟨"ghost", "x", "u"⟩, 1) ∧
    ("ghost" : String) ≠ Agent.finish_tool_name ∧
    ("echo" : String) ≠ Agent.finish_tool_name := by
  refine ⟨rfl, ?_, ?_⟩
  · exact finish_tool_name_never_dispatched.2.1 ghostAgent 0 [] [] ⟨"ghost", "x", "u"⟩ 1 rfl
  · exact finish_tool_name_never_dispatched.2.2.2 returnDirectExec [] 0 3
      (.finishedResult [("output", "done")] [(⟨"echo", "hi", "use echo"⟩, "obs:hi")])
      2 [("echo", "hi")] rfl ("echo", "hi") (by simp)
